import Mathlib

/-!
Shallow embedding of the HTMLCalc repository: the four-function calculator
(src/calc.js) and the form-validation engine (Validator / ValidationTarget /
ValidationFunction).  JavaScript numbers are modelled as rationals, strings as
Lean strings (their character lists), `undefined`/`NaN` as `Option`/an explicit
constructor.  DOM effects (classes, attributes, the modal) are modelled as
explicit fields of the state records.
-/

set_option maxRecDepth 8000

namespace HTMLCalc

/-! ### Character-list string helpers (JS string primitives) -/

/-- Numeric value of a decimal digit character. -/
def digitVal (c : Char) : Nat := c.toNat - '0'.toNat

/-- Value of a list of decimal digit characters. -/
def digitsVal (cs : List Char) : Nat := cs.foldl (fun a c => 10 * a + digitVal c) 0

/-- JS `String.prototype.trim`: strip whitespace from both ends. -/
def trimL (cs : List Char) : List Char :=
  ((cs.dropWhile Char.isWhitespace).reverse.dropWhile Char.isWhitespace).reverse

/-- JS `String.prototype.split(c)` for a single-character separator:
`"a;b"` gives `["a","b"]`, `"a;"` gives `["a",""]`, `""` gives `[""]`. -/
def splitOnCharAux (c : Char) : List Char → List Char → List (List Char)
  | [], acc => [acc.reverse]
  | x :: xs, acc =>
    if x = c then acc.reverse :: splitOnCharAux c xs [] else splitOnCharAux c xs (x :: acc)

/-- See `splitOnCharAux`. -/
def splitOnChar (c : Char) (cs : List Char) : List (List Char) := splitOnCharAux c cs []

/-- The source helper `isEmpty`: `new String(x).trim()` compared with `""`
(the `=== null` arm of the source is dead because `trim` returns a string). -/
def isEmptyJS (s : String) : Bool := (trimL s.data).isEmpty

/-- JS `parseInt` on a character list: skip leading whitespace, optional sign,
then the longest prefix of decimal digits; `none` models `NaN` (no digits).
`parseInt` never throws.  (Hex prefixes and an explicit radix are not used by
this repository and are outside the model.) -/
def jsParseIntL (cs : List Char) : Option Int :=
  let cs1 := cs.dropWhile Char.isWhitespace
  let signed : Bool × List Char :=
    match cs1 with
    | '-' :: rest => (true, rest)
    | '+' :: rest => (false, rest)
    | _ => (false, cs1)
  let ds := signed.2.takeWhile Char.isDigit
  if ds.isEmpty then none
  else if signed.1 then some (-(digitsVal ds : Int)) else some (digitsVal ds : Int)

/-- JS `parseFloat` on a character list: skip leading whitespace, optional
sign, longest prefix of the shape `digits [. digits]` (also `.digits`);
`none` models `NaN`.  (Exponent notation is not reachable from this
repository's inputs and is outside the model.) -/
def jsParseFloatL (cs : List Char) : Option ℚ :=
  let cs1 := cs.dropWhile Char.isWhitespace
  let signed : Bool × List Char :=
    match cs1 with
    | '-' :: rest => (true, rest)
    | '+' :: rest => (false, rest)
    | _ => (false, cs1)
  let ip := signed.2.takeWhile Char.isDigit
  let rest := signed.2.dropWhile Char.isDigit
  let fp : List Char :=
    match rest with
    | '.' :: r => r.takeWhile Char.isDigit
    | _ => []
  if ip.isEmpty && fp.isEmpty then none
  else
    let v : ℚ := (digitsVal (ip ++ fp) : ℚ) / ((10 : ℚ) ^ fp.length)
    if signed.1 then some (-v) else some v

/-- JS `ToNumber` coercion of a whole string (as used by `==`, `-`, `*`, `/`):
the trimmed string must be empty (value `0`) or entirely a decimal numeral.
`none` models `NaN`.  (Exponent and hex notation are not reachable from this
repository's inputs and are outside the model.) -/
def jsToNumberL (cs : List Char) : Option ℚ :=
  let t := trimL cs
  if t.isEmpty then some 0
  else
    let signed : Bool × List Char :=
      match t with
      | '-' :: rest => (true, rest)
      | '+' :: rest => (false, rest)
      | _ => (false, t)
    let ip := signed.2.takeWhile Char.isDigit
    let rest := signed.2.dropWhile Char.isDigit
    let finish : List Char → Option ℚ := fun fp =>
      if ip.isEmpty && fp.isEmpty then none
      else
        let v : ℚ := (digitsVal (ip ++ fp) : ℚ) / ((10 : ℚ) ^ fp.length)
        if signed.1 then some (-v) else some v
    match rest with
    | [] => finish []
    | '.' :: r =>
      if (r.dropWhile Char.isDigit).isEmpty then finish (r.takeWhile Char.isDigit) else none
    | _ => none

/-! ### JS values -/

/-- A JavaScript value as it flows through `calc.js`: a number (modelled as a
rational), a string, or `NaN`. -/
inductive JSVal where
  | num (q : ℚ)
  | str (s : String)
  | nan
deriving DecidableEq, Repr

/-- JS `ToString` of a value.  In the calculator a number is only ever
stringified when it is the freshly cleared accumulator `0` (every other
accumulator value is already a string), so only the integer case matters; the
non-integral case is given a definite but unused rendering. -/
def jsToString : JSVal → String
  | .num q => if q.den = 1 then toString q.num else toString q.num ++ "/" ++ toString q.den
  | .str s => s
  | .nan => "NaN"

/-- JS `ToNumber` of a value. -/
def jsToNumberV : JSVal → Option ℚ
  | .num q => some q
  | .str s => jsToNumberL s.data
  | .nan => none

/-- JS `parseInt` applied to a value (a number argument is stringified first;
for the values reachable in `calc.js` this is truncation toward zero). -/
def jsParseIntV : JSVal → Option Int
  | .num q => some (q.num / (q.den : Int))
  | .str s => jsParseIntL s.data
  | .nan => none

/-- JS `parseFloat` applied to a value. -/
def jsParseFloatV : JSVal → Option ℚ
  | .num q => some q
  | .str s => jsParseFloatL s.data
  | .nan => none

/-- JS loose equality with `0` (`x == 0`): coerce to number; `NaN` compares
false. -/
def jsEqZeroV (v : JSVal) : Bool :=
  match jsToNumberV v with
  | some q => q == 0
  | none => false

/-- JS loose equality of a string with `0` (the `num == 0` test on the button
value). -/
def jsStrEqZero (s : String) : Bool :=
  match jsToNumberL s.data with
  | some q => q == 0
  | none => false

/-- JS `+` when the left operand may be a value and the right is a string:
string concatenation after `ToString` (this is the `acc += num` path). -/
def jsPlusStr (v : JSVal) (b : String) : JSVal := .str (jsToString v ++ b)

/-- JS `*` on two values: numeric coercion; `NaN` if either coercion fails. -/
def jsMul (a b : JSVal) : JSVal :=
  match jsToNumberV a, jsToNumberV b with
  | some x, some y => .num (x * y)
  | _, _ => .nan

/-- JS `-` on two values. -/
def jsSub (a b : JSVal) : JSVal :=
  match jsToNumberV a, jsToNumberV b with
  | some x, some y => .num (x - y)
  | _, _ => .nan

/-- JS `/` on two values.  Division by numeric zero yields JS `Infinity`,
represented here by `nan`; `calc.js` guards this branch with a
`parseFloat(acc) == 0` test, so the zero case is unreachable from `calc`. -/
def jsDivV (a b : JSVal) : JSVal :=
  match jsToNumberV a, jsToNumberV b with
  | some x, some y => if y = 0 then .nan else .num (x / y)
  | _, _ => .nan

/-- Source `parseInt(reg) + parseInt(acc)`: the `'+'` branch of `calc`. -/
def jsAddInts (a b : JSVal) : JSVal :=
  match jsParseIntV a, jsParseIntV b with
  | some x, some y => .num (((x + y : Int) : ℚ))
  | _, _ => .nan

/-! ### The calculator (src/calc.js) -/

/-- The calculator's state: the closure variables `acc`, `reg`, `op`, `err`,
`decimal` of `calc.js`, plus the value shown in the `#display` element. -/
structure CalcState where
  acc : JSVal
  reg : JSVal
  op : String
  err : Bool
  decimal : Bool
  display : JSVal
deriving DecidableEq, Repr

/-- Source `clearAcc()`: reset the accumulator and the decimal-point flag. -/
def clearAccC (s : CalcState) : CalcState := { s with acc := JSVal.num 0, decimal := false }

/-- Source `clear()`: clear the pending operator and the error flag, clear the
accumulator, and show it. -/
def clearC (s : CalcState) : CalcState :=
  let s1 := clearAccC { s with op := "", err := false }
  { s1 with display := s1.acc }

/-- The body of `numberClick()` after its initial error check (`btn` is the
button's value): a second `.` and a leading `0` are ignored; a first digit
replaces the numeric `0` accumulator (the source then blanks `num` so the
following `acc += num` is a no-op). -/
def numberClickBody (s1 : CalcState) (btn : String) : CalcState :=
  if btn = "." ∧ s1.decimal then s1
  else
    let s2 := if btn = "." then { s1 with decimal := true } else s1
    if jsEqZeroV s2.acc then
      if jsStrEqZero btn then s2
      else if btn = "." then
        let a := jsPlusStr s2.acc btn
        { s2 with acc := a, display := a }
      else
        let a := JSVal.str btn
        { s2 with acc := a, display := a }
    else
      let a := jsPlusStr s2.acc btn
      { s2 with acc := a, display := a }

/-- Source `numberClick`'s first statement clears an error state before the body
processes the button. -/
def numberClick (s0 : CalcState) (btn : String) : CalcState :=
  numberClickBody (if s0.err then clearC s0 else s0) btn

/-- Source `calc()`: perform the pending operation; the result is stored in `reg`
and shown.  Division first tests `parseFloat(acc) == 0` and reports
`'Divide by zero.'` with the error flag set. -/
def calcFn (s : CalcState) : CalcState :=
  if s.op = "*" then
    let r := jsMul s.reg s.acc
    { s with reg := r, display := r }
  else if s.op = "/" then
    if jsParseFloatV s.acc = some 0 then
      { s with reg := JSVal.str "Divide by zero.", err := true,
               display := JSVal.str "Divide by zero." }
    else
      let r := jsDivV s.reg s.acc
      { s with reg := r, display := r }
  else if s.op = "+" then
    let r := jsAddInts s.reg s.acc
    { s with reg := r, display := r }
  else if s.op = "-" then
    let r := jsSub s.reg s.acc
    { s with reg := r, display := r }
  else
    { s with reg := s.acc, display := s.acc }

/-- Source `opClick()`: `C` clears, `=` computes, any other operator is saved with
the accumulator moved to the register. -/
def opClick (s : CalcState) (btn : String) : CalcState :=
  if btn = "C" then clearC s
  else if btn = "=" then calcFn s
  else clearAccC { s with op := btn, reg := s.acc }

/-! ### Date parsing and validity (isDate / normalizeDate) -/

/-- The regex `^(\d+)[-\/](\d+)[-\/](\d+)$` of `isDate`/`normalizeDate`:
three nonempty digit runs separated by `/` or `-` (independently), nothing
else; returns the `parseInt` values of the three captures. -/
def parseMDY (s : String) : Option (Nat × Nat × Nat) :=
  let cs := s.data
  let mds := cs.takeWhile Char.isDigit
  match cs.dropWhile Char.isDigit with
  | s1 :: r1 =>
    if s1 = '/' ∨ s1 = '-' then
      let dds := r1.takeWhile Char.isDigit
      match r1.dropWhile Char.isDigit with
      | s2 :: r2 =>
        if s2 = '/' ∨ s2 = '-' then
          let yds := r2.takeWhile Char.isDigit
          if mds.isEmpty || dds.isEmpty || yds.isEmpty || !(r2.dropWhile Char.isDigit).isEmpty
          then none
          else some (digitsVal mds, digitsVal dds, digitsVal yds)
        else none
      | [] => none
    else none
  | [] => none

/-- Source `parseInt(window)` where `window` is the `date-window` attribute
(`undefined` when absent).  `parseInt` never throws, so the source's
`catch (e) { window = 50 }` is dead code: an absent attribute yields `NaN`
(`none`), not `50`. -/
def jsParseIntOpt : Option String → Option Int
  | none => none
  | some s => jsParseIntL s.data

/-- The `parts.y < window` comparison of `normalizeDate`: comparing with
`NaN` (`none`) is false for every `y`. -/
def ltWindow (y : Nat) (w : Option Int) : Bool :=
  match w with
  | some wv => decide ((y : Int) < wv)
  | none => false

/-- The year-windowing of `normalizeDate`: `y < window` gives `2000 + y`,
otherwise `y < 100` gives `1900 + y`, otherwise `y` unchanged. -/
def applyWindow (y : Nat) (w : Option Int) : Nat :=
  if ltWindow y w then y + 2000
  else if y < 100 then y + 1900
  else y

/-- Source `normalizeDate` on already-matched parts (the regex match itself is
`parseMDY`): month and day pass through, the year is windowed; the result is
also what the source assembles into the `parts.mdy` string. -/
def normalizeDate (m d y : Nat) (w : Option String) : Nat × Nat × Nat :=
  (m, d, applyWindow y (jsParseIntOpt w))

/-- Gregorian leap-year test. -/
def isLeap (y : Nat) : Bool := (y % 4 == 0 && y % 100 != 0) || y % 400 == 0

/-- Days in month `m` (1-based) of year `y`. -/
def daysInMonth (y m : Nat) : Nat :=
  if m = 2 then (if isLeap y then 29 else 28)
  else if m = 4 ∨ m = 6 ∨ m = 9 ∨ m = 11 then 30
  else 31

/-- Day-overflow normalization of a calendar date: roll an oversized day
number forward into following months (e.g. January 41 becomes February 10).
`fuel` bounds the recursion; `fuel = d` always suffices since each step
removes at least 28 days. -/
def rollDate (fuel : Nat) (y m d : Nat) : Nat × Nat × Nat :=
  match fuel with
  | 0 => (m, d, y)
  | fuel + 1 =>
    if d ≤ daysInMonth y m then (m, d, y)
    else if m = 12 then rollDate fuel (y + 1) 1 (d - daysInMonth y m)
    else rollDate fuel y (m + 1) (d - daysInMonth y m)

/-- Model of the JS runtime's `new Date("m/d/y")` for numeric components
with a 3-or-more-digit year (the only case `isDate` produces, since windowing
maps every 2-digit year into the 1900s/2000s), as documented in the source:
the month must be 1–12 and the day at least 1, and an oversized day rolls
over into following months; otherwise the result is `Invalid Date` (`none`).
The returned triple is (`getMonth() + 1`, `getDate()`, `getFullYear()`). -/
def jsNewDate (m d y : Nat) : Option (Nat × Nat × Nat) :=
  if 1 ≤ m ∧ m ≤ 12 ∧ 1 ≤ d then some (rollDate d y m d) else none

/-- Source `isDate(data, window)`: match the numeric `M/D/Y` pattern, window the
year, build a `Date` from the normalized string, and require the month, day
and year re-extracted from the `Date` to equal the parsed (windowed)
components. -/
def isDate (data : String) (w : Option String) : Bool :=
  match parseMDY data with
  | none => false
  | some (m, d, y) =>
    let p := normalizeDate m d y w
    match jsNewDate p.1 p.2.1 p.2.2 with
    | none => false
    | some (m2, d2, y2) => p.1 == m2 && p.2.1 == d2 && p.2.2 == y2

/-! ### The EMail validation rule -/

/-- Character class `[_a-zA-Z0-9-]` (local part of the address pattern). -/
def emailLocalChar (c : Char) : Bool := c = '_' || c.isAlpha || c.isDigit || c = '-'

/-- Character class `[a-zA-Z0-9-]` (domain part of the address pattern). -/
def emailDomainChar (c : Char) : Bool := c.isAlpha || c.isDigit || c = '-'

/-- Source `([_a-zA-Z0-9-]+)(\.[_a-zA-Z0-9-]+)*`: dot-separated nonempty runs of
local-part characters. -/
def emailLocalOk (cs : List Char) : Bool :=
  (splitOnChar '.' cs).all (fun seg => !seg.isEmpty && seg.all emailLocalChar)

/-- Source `([a-zA-Z0-9-]+)(\.[a-zA-Z0-9-]+)*(\.[a-zA-Z]{2,4})$`: at least two
dot-separated segments; all but the last are nonempty runs of domain
characters; the last is 2–4 letters. -/
def emailDomainOk (cs : List Char) : Bool :=
  let segs := splitOnChar '.' cs
  decide (2 ≤ segs.length) &&
    segs.dropLast.all (fun seg => !seg.isEmpty && seg.all emailDomainChar) &&
    (let tld := segs.getLastD []
     decide (2 ≤ tld.length) && decide (tld.length ≤ 4) && tld.all Char.isAlpha)

/-- The fixed address pattern of `Validator_EMail` (anchored `^...$`; the
single `@` splits the local and domain parts, neither of which may contain
`@`). -/
def emailPatt (cs : List Char) : Bool :=
  match splitOnChar '@' cs with
  | [l, r] => emailLocalOk l && emailDomainOk r
  | _ => false

/-- One `fail(...)`/`warn(...)` call made by a validation function during a
pass. -/
inductive Outcome where
  | fail (msg : String)
  | warn (msg : String)
deriving DecidableEq, Repr

/-- The body of `Validator_EMail` on the control's value, returning the
`fail` calls it makes: a value containing `;` is split and every segment is
trimmed and tested, each invalid segment producing its own failure message;
otherwise a nonempty value is trimmed and tested once. -/
def Validator_EMail (value : String) : List Outcome :=
  let cs := value.data
  if cs.contains ';' then
    (splitOnChar ';' cs).filterMap (fun seg =>
      if emailPatt (trimL seg) then none
      else some (Outcome.fail (String.mk (trimL seg) ++ " is not a valid email address.")))
  else if !isEmptyJS value then
    if !emailPatt (trimL cs) then
      [Outcome.fail (String.mk (trimL cs) ++ " is not a valid email address.")]
    else []
  else []

/-! ### ValidationTarget / Validator: status aggregation and rendering

A `ValidationFunction`'s behaviour during one pass is its (finite) list of
`fail`/`warn` calls, recorded per registered rule in `rules`; the source's
per-rule re-entrancy lock is invisible here because the modelled rule bodies
cannot re-trigger a pass. -/

/-- One `ValidationTarget`: its bit-flag `state` (PASS = 0, WARN = 1,
FAIL = 2), accumulated `messages`, the rendered help-block text, whether the
control's current value is empty (the `SELECT`/input emptiness test of
`setValidationResults`), whether a `.disabled` ancestor suppresses the pass,
whether the control is still in the DOM (`control.length != 0`), and the
registered rules' behaviours. -/
structure VTarget where
  state : Nat
  messages : List String
  helpText : String
  controlEmpty : Bool
  disabledAncestor : Bool
  inDom : Bool
  rules : List (List Outcome)
deriving DecidableEq, Repr

/-- Source `addMessage`: append the message unless an identical one is present. -/
def addMessage (ms : List String) (m : String) : List String :=
  if ms.contains m then ms else ms ++ [m]

/-- Source `fullMessage`: all messages joined with newlines. -/
def fullMessage (t : VTarget) : String :=
  match t.messages with
  | [] => ""
  | m :: ms => ms.foldl (fun a x => a ++ "\n" ++ x) m

/-- Source `fail(message)` / `warn(message)`: OR the FAIL/WARN bit into the state
and record the prefixed, deduplicated message. -/
def applyOutcome (t : VTarget) (o : Outcome) : VTarget :=
  match o with
  | .fail msg =>
    { t with state := t.state ||| 2, messages := addMessage t.messages ("Error: " ++ msg) }
  | .warn msg =>
    { t with state := t.state ||| 1, messages := addMessage t.messages ("Warning: " ++ msg) }

/-- Source `setValidationResults(submitting)` restricted to what the model tracks:
nothing happens when the control left the DOM; the help text is cleared and,
unless the field passed with an empty control (clean fields show nothing),
set to `fullMessage`.  The `submitting` flag only selects which behaviour
bit-mask governs the purely visual toggles (icon, highlight, hidden class),
which the model does not track, so it is unused here. -/
def setValidationResults (_submitting : Bool) (t : VTarget) : VTarget :=
  if !t.inDom then t
  else { t with helpText := if t.state == 0 && t.controlEmpty then "" else fullMessage t }

/-- Source `clear()`: reset state and messages to PASS and re-render. -/
def clearTarget (t : VTarget) : VTarget :=
  setValidationResults false { t with state := 0, messages := [] }

/-- Source `ValidationTarget.validateAll(submitting)`: clear, then (unless beneath a
disabled ancestor) run every registered rule once and render the results. -/
def runTarget (submitting : Bool) (t : VTarget) : VTarget :=
  let t0 := clearTarget t
  if t.disabledAncestor then t0
  else setValidationResults submitting (t.rules.foldl (fun a outs => outs.foldl applyOutcome a) t0)

/-- One `Validator` (FormValidator): its targets in insertion order (keys are
unique, so a list suffices), the configured `submitBehavior`, whether a
`postValidation` callback is assigned, and whether the submit buttons
currently carry the `disabled` class. -/
structure VForm where
  targets : List VTarget
  submitBehavior : Nat
  hasPostValidation : Bool
  submitDisabled : Bool
deriving DecidableEq, Repr

/-- Source `Validator.state()` on a target list: bitwise OR of all target states,
starting from PASS. -/
def cumStateL (ts : List VTarget) : Nat := ts.foldl (fun s t => s ||| t.state) 0

/-- Source `Validator.state()`: the cumulative state of the form's targets. -/
def cumState (f : VForm) : Nat := cumStateL f.targets

/-- Source `Validator.post()`: compute `hasFailures = (state() & FAIL) != FAIL`
(note: this is true exactly when the FAIL bit is NOT set), pass it to the
`postValidation` callback when one is assigned (the returned `Option Bool`
is the argument of that single invocation, `none` when no callback is
registered), and — only when `submitBehavior` EQUALS `SubmitEnum.DISABLE`
(16), an equality test, not a bit test — add or remove the submit buttons'
`disabled` class according to `hasFailures`. -/
def hasFailuresF (f : VForm) : Bool := !((cumState f &&& 2) == 2)

/-- Source `Validator.post()` proper; `hasFailuresF` is the source's (misnamed)
local variable `hasFailures`, see its doc comment. -/
def postF (f : VForm) : VForm × Option Bool :=
  ((if f.submitBehavior == 16 then
      if hasFailuresF f then { f with submitDisabled := true }
      else { f with submitDisabled := false }
    else f),
   if f.hasPostValidation then some (hasFailuresF f) else none)

/-- Source `Validator.validateAll(submitting)`: run every target's full pass, then
`post()`. -/
def validateAllF (submitting : Bool) (f : VForm) : VForm × Option Bool :=
  postF { f with targets := f.targets.map (runTarget submitting) }

/-- Source `Validator.addTarget` for a control identity not yet present: a new
`ValidationTarget` is appended (its constructor initializes `state` to PASS
and `messages` to empty). -/
def addTargetF (f : VForm) (t : VTarget) : VForm := { f with targets := f.targets ++ [t] }

/-- The `\n` → `<br>` and `\t` → `&nbsp;&nbsp;&nbsp;&nbsp;` replacements of
`displayAllErrors`. -/
def replaceNLTab (cs : List Char) : List Char :=
  cs.foldr (fun c acc =>
    if c = '\n' then '<' :: 'b' :: 'r' :: '>' :: acc
    else if c = '\t' then "&nbsp;&nbsp;&nbsp;&nbsp;".data ++ acc
    else c :: acc) []

/-- Source `displayAllErrors`: the list items of the modal summary — every
`.help-block` text in scope (one per target), transformed, keeping only the
non-empty ones. -/
def displayedErrorItems (f : VForm) : List String :=
  (f.targets.map (fun t => String.mk (replaceNLTab t.helpText.data))).filter
    (fun m => !isEmptyJS m)

/-- The observable result of `Validator.isValid(event)`: the returned
boolean, whether the triggering event's propagation and default action were
suppressed, the modal summary's items when it was shown, and the form state
afterwards. -/
structure IsValidResult where
  ret : Bool
  suppressed : Bool
  modal : Option (List String)
  final : VForm
deriving DecidableEq, Repr

/-- Source `Validator.isValid(event)`: run a submission-mode `validateAll(true)`;
if the cumulative state has the FAIL bit, suppress the event (when one was
supplied), display the summary modal and return false; otherwise return
true. -/
def isValidF (f : VForm) (hasEvent : Bool) : IsValidResult :=
  let f1 := (validateAllF true f).1
  if cumState f1 &&& 2 = 2 then
    ⟨false, hasEvent, some (displayedErrorItems f1), f1⟩
  else
    ⟨true, false, none, f1⟩

/-- A rule behaviour that makes no `fail` call. -/
def noFail (outs : List Outcome) : Bool :=
  outs.all (fun o => match o with | .fail _ => false | .warn _ => true)

/-- A rule set none of whose rules ever calls `fail`. -/
def noFailRules (rs : List (List Outcome)) : Bool := rs.all noFail

/-! ### Rule registration bookkeeping (addValidation / removeValidation)

JS objects used as dictionaries are modelled as association lists in
insertion order with unique keys (`validations` keyed by rule name,
`refCount` keyed by `triggerId + '.' + event`). -/

/-- One entry of `this.validations`: the re-entrancy lock and the per-(trigger,
event) reference counts (the rule's function itself carries no registration
state). -/
structure ValEntry where
  lock : Bool
  refCount : List (String × Nat)
deriving DecidableEq, Repr

/-- A target's `validations` dictionary: rule name → entry. -/
abbrev ValMap := List (String × ValEntry)

/-- Replace the value at an existing key (JS assignment to a present
property). -/
def alUpdate {α : Type} (k : String) (v : α) : List (String × α) → List (String × α)
  | [] => []
  | (k', v') :: rest => if k' = k then (k', v) :: rest else (k', v') :: alUpdate k v rest

/-- JS `delete obj[k]`. -/
def alErase {α : Type} (k : String) : List (String × α) → List (String × α)
  | [] => []
  | (k', v') :: rest => if k' = k then rest else (k', v') :: alErase k rest

/-- The keys of an association list (JS own-property names). -/
def alKeys {α : Type} (l : List (String × α)) : List String := l.map Prod.fst

/-- Apply `g` to the entry at `k`, if present. -/
def updEntry (vs : ValMap) (k : String) (g : ValEntry → ValEntry) : ValMap :=
  match List.lookup k vs with
  | none => vs
  | some en => alUpdate k (g en) vs

/-- Source `triggerId + '.' + event`. -/
def eventId (triggerId ev : String) : String := triggerId ++ "." ++ ev

/-- The per-event step of `addValidation`: a first registration sets the
count to 1 (and binds the DOM handler); a repeat increments it. -/
def bumpRef (rc : List (String × Nat)) (eid : String) : List (String × Nat) :=
  match List.lookup eid rc with
  | none => rc ++ [(eid, 1)]
  | some n => alUpdate eid (n + 1) rc

/-- The per-event step of `removeValidation`: decrement; a count reaching
zero unbinds the DOM handler and deletes the key.  On an absent key the
source's `v.refCount[eventId]--` stores `NaN`, `NaN < 1` holds, and the
`off`/`delete` pair leaves the dictionary unchanged. -/
def dropRef (rc : List (String × Nat)) (eid : String) : List (String × Nat) :=
  match List.lookup eid rc with
  | none => rc
  | some n => if n - 1 < 1 then alErase eid rc else alUpdate eid (n - 1) rc

/-- Source `ValidationTarget.addValidation(triggerControl, events, vf)`: create the
rule's entry if this rule name is not yet registered (so a rule is stored at
most once per target), then bump the reference count of every
(trigger, event) pair. -/
def addValidationT (vs : ValMap) (triggerId : String) (events : List String) (vfName : String) :
    ValMap :=
  let vs1 :=
    match List.lookup vfName vs with
    | some _ => vs
    | none => vs ++ [(vfName, ⟨false, []⟩)]
  events.foldl (fun m ev =>
    updEntry m vfName (fun en => { en with refCount := bumpRef en.refCount (eventId triggerId ev) }))
    vs1

/-- Source `ValidationTarget.removeValidation(triggerControl, events, vf)`: drop the
reference counts of the given (trigger, event) pairs and delete the rule's
entry when no references remain (`Object.size(v.refCount) == 0`). -/
def removeValidationT (vs : ValMap) (triggerId : String) (events : List String) (vfName : String) :
    ValMap :=
  match List.lookup vfName vs with
  | none => vs
  | some _ =>
    let vs1 :=
      events.foldl (fun m ev =>
        updEntry m vfName
          (fun en => { en with refCount := dropRef en.refCount (eventId triggerId ev) }))
        vs
    match List.lookup vfName vs1 with
    | some en => if en.refCount.length = 0 then alErase vfName vs1 else vs1
    | none => vs1

/-- A `Validator`'s `targets` dictionary restricted to the registration
bookkeeping: control identity → that target's `validations`. -/
abbrev TargetMap := List (String × ValMap)

/-- Source `Validator.removeControlFunction`: forward to the target's
`removeValidation`, then — when the target has no validations left
(`Object.size(target.validations) == 0`) — clear it, remove its indicator
decoration, and delete the target itself. -/
def removeControlFunctionV (tm : TargetMap) (targetId triggerId : String)
    (events : List String) (vfName : String) : TargetMap :=
  match List.lookup targetId tm with
  | none => tm
  | some vm =>
    let vm' := removeValidationT vm triggerId events vfName
    if vm'.length = 0 then alErase targetId tm else alUpdate targetId vm' tm

/-! ### Concrete fixtures used by the theorems -/

/-- A target whose single rule always fails (e.g. a required field left
empty ... the control is non-empty so rendering is not suppressed). -/
def failTarget : VTarget :=
  ⟨0, [], "", false, false, true, [[Outcome.fail "Name is a required field."]]⟩

/-- A target with one rule that never signals (a clean pass). -/
def passTarget : VTarget := ⟨0, [], "", false, false, true, [[]]⟩

/-- A target whose single rule issues a warning only. -/
def warnTarget : VTarget := ⟨0, [], "", false, false, true, [[Outcome.warn "check this value"]]⟩

/-- Source `submitBehavior = SubmitEnum.DISABLE (16)` with one failing field. -/
def disableFailForm : VForm := ⟨[failTarget], 16, false, false⟩

/-- Source `submitBehavior = SubmitEnum.DISABLE (16)` with one passing field; the
submit button currently carries the `disabled` class. -/
def disablePassForm : VForm := ⟨[passTarget], 16, false, true⟩

/-- Source `submitBehavior = SUMMARY ||| DISABLE (24)`: includes the DISABLE bit
but is not equal to it; one passing field; button currently disabled. -/
def summaryDisableForm : VForm := ⟨[passTarget], 24, false, true⟩

/-- A form with a `postValidation` callback whose only field warns. -/
def warnOnlyForm : VForm := ⟨[warnTarget], 0, true, false⟩

/-- A form with a `postValidation` callback whose only field fails. -/
def postFailForm : VForm := ⟨[failTarget], 0, true, false⟩

/-- A form with one failing and one warning field (no submit management). -/
def mixedForm : VForm := ⟨[failTarget, warnTarget], 0, false, false⟩

/-- A form whose only field warns (no submit management). -/
def warnSubmitForm : VForm := ⟨[warnTarget], 0, false, false⟩

/-- A target as left by a pass in which its rule failed (FAIL bit set). -/
def failedTarget : VTarget :=
  ⟨2, ["Error: Name is a required field."], "Error: Name is a required field.",
   false, false, true, [[Outcome.fail "Name is a required field."]]⟩

/-- A form whose only field currently has the FAIL bit set. -/
def failedForm : VForm := ⟨[failedTarget], 0, false, false⟩

/-! ### Helper lemmas -/

theorem and_two_eq_two_iff (x : Nat) : x &&& 2 = 2 ↔ x.testBit 1 = true := by
  rw [show (2 : Nat) = 2 ^ 1 from rfl, Nat.and_two_pow]
  cases hx : x.testBit 1 <;> simp [hx]

theorem foldl_or_testBit (l : List VTarget) (a i : Nat) :
    (l.foldl (fun s t => s ||| t.state) a).testBit i =
      (a.testBit i || l.any (fun t => t.state.testBit i)) := by
  induction l generalizing a with
  | nil => simp
  | cons t ts ih => simp [List.foldl_cons, ih, Nat.testBit_lor, Bool.or_assoc]

theorem cumStateL_testBit (ts : List VTarget) (i : Nat) :
    (cumStateL ts).testBit i = ts.any (fun t => t.state.testBit i) := by
  simp [cumStateL, foldl_or_testBit]

theorem postF_fst_targets (f : VForm) : ((postF f).1).targets = f.targets := by
  simp only [postF]
  split_ifs <;> rfl

theorem validateAllF_fst_targets (b : Bool) (f : VForm) :
    ((validateAllF b f).1).targets = f.targets.map (runTarget b) := by
  simp [validateAllF, postF_fst_targets]

theorem setValidationResults_state (b : Bool) (t : VTarget) :
    (setValidationResults b t).state = t.state := by
  unfold setValidationResults
  split_ifs <;> rfl

theorem clearTarget_state (t : VTarget) : (clearTarget t).state = 0 := by
  simp [clearTarget, setValidationResults_state]

theorem outcomes_fold_noFail (outs : List Outcome) :
    ∀ t : VTarget, noFail outs = true → t.state.testBit 1 = false →
      ((outs.foldl applyOutcome t).state).testBit 1 = false := by
  induction outs with
  | nil => intro t _ ht; simpa using ht
  | cons o os ih =>
    intro t h ht
    match o with
    | .fail m => simp [noFail] at h
    | .warn m =>
      have h' : noFail os = true := by
        simp [noFail] at h ⊢
        exact h
      refine ih _ h' ?_
      have h1 : Nat.testBit 1 1 = false := by decide
      simp [applyOutcome, Nat.testBit_lor, ht, h1]

theorem rules_fold_noFail (rs : List (List Outcome)) :
    ∀ t : VTarget, noFailRules rs = true → t.state.testBit 1 = false →
      ((rs.foldl (fun a outs => outs.foldl applyOutcome a) t).state).testBit 1 = false := by
  induction rs with
  | nil => intro t _ ht; simpa using ht
  | cons outs rest ih =>
    intro t h ht
    have h1 : noFail outs = true ∧ noFailRules rest = true := by
      simp [noFailRules] at h ⊢
      exact ⟨h.1, h.2⟩
    exact ih _ h1.2 (outcomes_fold_noFail outs t h1.1 ht)

theorem runTarget_noFail (b : Bool) (t : VTarget) (h : noFailRules t.rules = true) :
    ((runTarget b t).state).testBit 1 = false := by
  unfold runTarget
  have h0 : (clearTarget t).state.testBit 1 = false := by
    rw [clearTarget_state]; simp
  split_ifs with hd
  · exact h0
  · rw [setValidationResults_state]
    exact rules_fold_noFail t.rules (clearTarget t) h h0

/-! ### Claim theorems -/

/-- Claim C4 (code_bug evaluation): two-digit-year windowing.  With no
`date-window` attribute configured, `parseInt(undefined)` is `NaN` (the
source's `catch` that would assign the documented default `50` is dead code,
because `parseInt` never throws), the `y < window` comparison is false for
every year, and year 49 therefore normalizes to 1949 — not to 2049 as the
claim (and the source's own comment "if no window is defined, use 50")
state.  With an explicit window of 50 the windowing behaves as claimed:
49 → 2049 and 51 → 1951. -/
theorem date_window_default_is_nan :
    jsParseIntOpt none = none ∧
    normalizeDate 1 1 49 none = (1, 1, 1949) ∧
    normalizeDate 1 1 51 none = (1, 1, 1951) ∧
    normalizeDate 12 31 0 none = (12, 31, 1900) ∧
    normalizeDate 1 1 49 (some "50") = (1, 1, 2049) ∧
    normalizeDate 1 1 51 (some "50") = (1, 1, 1951) ∧
    normalizeDate 1 1 50 (some "50") = (1, 1, 1950) := by
  exact ⟨rfl, by decide, by decide, by decide, by decide, by decide, by decide⟩

/-- Claim C1 (code_bug evaluation): submit-button management under
`SubmitEnum.DISABLE`.  After a full validation pass with
`submitBehavior = DISABLE (16)`, a form whose cumulative state has the FAIL
bit ends with the submit button ENABLED (`disabled` class absent), and a
form with no failure ends with the button DISABLED — the inverse of the
claim and of `SubmitEnum.DISABLE`'s own documentation, caused by
`hasFailures = (state() & FAIL) != FAIL` being true exactly when the FAIL
bit is clear.  Moreover the source compares `submitBehavior == DISABLE`
(equality, not a bit test), so `SUMMARY ||| DISABLE (24)` — which includes
the DISABLE flag — leaves the button untouched even though every field
passes. -/
theorem submit_disable_management_inverted :
    (cumState ((validateAllF true disableFailForm).1) &&& 2 = 2) ∧
    ((validateAllF true disableFailForm).1).submitDisabled = false ∧
    (cumState ((validateAllF true disablePassForm).1) &&& 2 ≠ 2) ∧
    ((validateAllF true disablePassForm).1).submitDisabled = true ∧
    ((validateAllF true summaryDisableForm).1).submitDisabled = true := by
  refine ⟨by decide, by decide, by decide, by decide, by decide⟩

/-- Claim C2: the cumulative state's FAIL bit is the OR-aggregation of the
owned targets' FAIL bits (it is set exactly when some owned target's state
has it), and the aggregation is monotone in the set of fields: appending a
freshly-constructed field (state PASS) whose rules never call `fail` keeps
the FAIL bit set, and even re-running a full validation pass on the extended
form leaves the cumulative FAIL bit the same as a pass over the original
form. -/
theorem cumulative_state_or_monotone (f : VForm) (t : VTarget) (b : Bool)
    (_ht : t.state = 0) (hnf : noFailRules t.rules = true)
    (hfail : (cumState f).testBit 1 = true) :
    ((cumState f).testBit 1 = f.targets.any (fun x => x.state.testBit 1)) ∧
    (cumState (addTargetF f t)).testBit 1 = true ∧
    (cumState ((validateAllF b (addTargetF f t)).1)).testBit 1 =
      (cumState ((validateAllF b f).1)).testBit 1 := by
  have hany : f.targets.any (fun x => x.state.testBit 1) = true := by
    rw [cumState, cumStateL_testBit] at hfail
    exact hfail
  refine ⟨by rw [cumState, cumStateL_testBit], ?_, ?_⟩
  · simp [cumState, addTargetF, cumStateL_testBit, List.any_append, hany]
  · rw [cumState, cumState, validateAllF_fst_targets, validateAllF_fst_targets]
    simp [addTargetF, cumStateL_testBit, List.any_append, runTarget_noFail b t hnf]

/-- Witness for `cumulative_state_or_monotone` at a concrete failing form
and a concrete never-failing new field. -/
theorem cumulative_state_or_monotone_witness :
    ((cumState failedForm).testBit 1 = failedForm.targets.any (fun x => x.state.testBit 1)) ∧
    (cumState (addTargetF failedForm passTarget)).testBit 1 = true ∧
    (cumState ((validateAllF false (addTargetF failedForm passTarget)).1)).testBit 1 =
      (cumState ((validateAllF false failedForm).1)).testBit 1 :=
  cumulative_state_or_monotone failedForm passTarget false (by decide) (by decide) (by decide)

/-- Claim C3: `isValid` runs a submission-mode full validation and returns
true exactly when no owned field has the FAIL bit afterwards (fields with
only WARN set do not block); when it returns false it suppresses the
triggering event exactly when an event object was supplied, and it shows the
modal summary — whose items are the non-empty rendered help messages in
scope — exactly when it returns false. -/
theorem isValid_submission_behavior (f : VForm) (e : Bool) :
    ((isValidF f e).ret = true ↔
      ∀ t ∈ (isValidF f e).final.targets, t.state.testBit 1 = false) ∧
    (isValidF f e).suppressed = (e && !(isValidF f e).ret) ∧
    (isValidF f e).modal =
      (if (isValidF f e).ret then none
       else some (displayedErrorItems (isValidF f e).final)) ∧
    (isValidF f e).final = (validateAllF true f).1 := by
  by_cases h : cumState ((validateAllF true f).1) &&& 2 = 2
  · have hr : isValidF f e =
        ⟨false, e, some (displayedErrorItems ((validateAllF true f).1)),
         (validateAllF true f).1⟩ := by
      simp [isValidF, h]
    rw [hr]
    refine ⟨?_, by simp, by simp, rfl⟩
    have hb : ((validateAllF true f).1).targets.any (fun t => t.state.testBit 1) = true := by
      have h2 := (and_two_eq_two_iff _).mp h
      rw [cumState, cumStateL_testBit] at h2
      exact h2
    constructor
    · intro hfalse; exact absurd hfalse (by simp)
    · intro hall
      obtain ⟨t, htmem, htb⟩ := List.any_eq_true.mp hb
      rw [hall t htmem] at htb
      exact absurd htb (by simp)
  · have hr : isValidF f e = ⟨true, false, none, (validateAllF true f).1⟩ := by
      simp [isValidF, h]
    rw [hr]
    refine ⟨?_, by simp, by simp, rfl⟩
    constructor
    · intro _ t htmem
      by_contra hbt
      have hbt' : t.state.testBit 1 = true := by
        cases hq : t.state.testBit 1
        · exact absurd hq hbt
        · rfl
      have hany : ((validateAllF true f).1).targets.any (fun t => t.state.testBit 1) = true :=
        List.any_eq_true.mpr ⟨t, htmem, hbt'⟩
      refine h ((and_two_eq_two_iff _).mpr ?_)
      rw [cumState, cumStateL_testBit]
      exact hany
    · intro _; rfl

/-- Claim C8 counterexample: the claim's "all passed" reading fails on the
code.  For a form whose single field's rule only warns, the `postValidation`
callback receives `true`, yet not every owned field passed validation (the
field's state is WARN, not PASS). -/
theorem post_allpassed_strict_counterexample :
    (validateAllF false warnOnlyForm).2 = some true ∧
    ¬(∀ t ∈ ((validateAllF false warnOnlyForm).1).targets, t.state = 0) := by
  exact ⟨by decide, by decide⟩

/-- Claim C8 (amended): after every full-scope pass, a registered
`postValidation` callback is invoked exactly once, and its boolean argument
is true precisely when no owned field has the FAIL bit set (a field with
only WARN still counts as passed for this signal), hence false precisely
when some field failed. -/
theorem post_signal_iff_no_fail (f : VForm) (b : Bool)
    (hp : f.hasPostValidation = true) :
    ∃ v, (validateAllF b f).2 = some v ∧
      (v = true ↔ ∀ t ∈ ((validateAllF b f).1).targets, t.state.testBit 1 = false) := by
  refine ⟨hasFailuresF { f with targets := f.targets.map (runTarget b) }, ?_, ?_⟩
  · simp [validateAllF, postF, hp]
  · rw [validateAllF_fst_targets]
    constructor
    · intro hv t htmem
      by_contra hbt
      have hbt' : t.state.testBit 1 = true := by
        cases hq : t.state.testBit 1
        · exact absurd hq hbt
        · rfl
      have hany : (f.targets.map (runTarget b)).any (fun t => t.state.testBit 1) = true :=
        List.any_eq_true.mpr ⟨t, htmem, hbt'⟩
      have h2 : cumState { f with targets := f.targets.map (runTarget b) } &&& 2 = 2 := by
        refine (and_two_eq_two_iff _).mpr ?_
        rw [cumState, cumStateL_testBit]
        exact hany
      simp [hasFailuresF, h2] at hv
    · intro hall
      have h2 : ¬(cumState { f with targets := f.targets.map (runTarget b) } &&& 2 = 2) := by
        intro h2
        have hany := (and_two_eq_two_iff _).mp h2
        rw [cumState, cumStateL_testBit] at hany
        obtain ⟨t, htmem, htb⟩ := List.any_eq_true.mp hany
        rw [hall t htmem] at htb
        exact absurd htb (by simp)
      simp [hasFailuresF, h2]

/-- Witness for `post_signal_iff_no_fail` at a concrete form with a
callback and a failing field. -/
theorem post_signal_iff_no_fail_witness :
    ∃ v, (validateAllF false postFailForm).2 = some v ∧
      (v = true ↔ ∀ t ∈ ((validateAllF false postFailForm).1).targets,
        t.state.testBit 1 = false) :=
  post_signal_iff_no_fail postFailForm false (by decide)

/-- Claim C5: `isDate` accepts a numeric `M/D/Y` (or `M-D-Y`) string exactly
when the month, day and year re-extracted from the calendar date built from
the normalized string equal the parsed (windowed) components; in particular
`"1/41/2015"` is rejected (it silently rolls to February 10, 2015),
`"02/10/2015"` is accepted, and `"13/01/2015"` is rejected (no month 13). -/
theorem date_check (s : String) (w : Option String) (m d y : Nat)
    (h : parseMDY s = some (m, d, y)) :
    (isDate s w = true ↔
      jsNewDate m d (applyWindow y (jsParseIntOpt w)) =
        some (m, d, applyWindow y (jsParseIntOpt w))) ∧
    isDate "1/41/2015" none = false ∧
    jsNewDate 1 41 2015 = some (2, 10, 2015) ∧
    isDate "02/10/2015" none = true ∧
    isDate "13/01/2015" none = false := by
  refine ⟨?_, by decide, by decide, by decide, by decide⟩
  rw [isDate, h]
  cases hj : jsNewDate m d (applyWindow y (jsParseIntOpt w)) with
  | none => simp [normalizeDate, hj]
  | some p =>
    obtain ⟨m2, d2, y2⟩ := p
    simp [normalizeDate, hj, Prod.ext_iff]
    omega

/-- Witness for `date_check` at the concrete accepted date. -/
theorem date_check_witness :
    isDate "02/10/2015" none = true ↔
      jsNewDate 2 10 (applyWindow 2015 (jsParseIntOpt none)) =
        some (2, 10, applyWindow 2015 (jsParseIntOpt none)) :=
  (date_check "02/10/2015" none 2 10 2015 (by decide)).1

/-- Claim C7: the Email rule accepts a single address exactly when the
trimmed value matches the fixed pattern, and for a semicolon-delimited value
it trims each segment and fails once per invalid segment, naming it:
`"a@b.com"` passes, `"a@b.com;bad"` fails reporting exactly the segment
`bad`, and `"a@b.com; c@d.org"` passes both segments after trimming. -/
theorem email_rule_segments (s : String)
    (hs : s.data.contains ';' = false) (hne : isEmptyJS s = false) :
    (Validator_EMail s = [] ↔ emailPatt (trimL s.data) = true) ∧
    Validator_EMail "a@b.com" = [] ∧
    Validator_EMail "a@b.com;bad" = [Outcome.fail "bad is not a valid email address."] ∧
    Validator_EMail "a@b.com; c@d.org" = [] := by
  refine ⟨?_, by decide, by decide, by decide⟩
  rw [Validator_EMail, hs, hne]
  cases hp : emailPatt (trimL s.data) <;> simp [hp]

/-- Witness for `email_rule_segments` at a concrete single address. -/
theorem email_rule_segments_witness :
    Validator_EMail "a@b.com" = [] ↔ emailPatt (trimL "a@b.com".data) = true :=
  (email_rule_segments "a@b.com" (by decide) (by decide)).1

theorem alKeys_alUpdate {α : Type} (k : String) (v : α) (l : List (String × α)) :
    alKeys (alUpdate k v l) = alKeys l := by
  induction l with
  | nil => rfl
  | cons p rest ih =>
    obtain ⟨k', v'⟩ := p
    by_cases hk : k' = k
    · simp [alUpdate, alKeys, hk]
    · simp only [alUpdate, if_neg hk]
      simp only [alKeys, List.map_cons] at ih ⊢
      rw [ih]

theorem alKeys_updEntry (vs : ValMap) (k : String) (g : ValEntry → ValEntry) :
    alKeys (updEntry vs k g) = alKeys vs := by
  unfold updEntry
  cases h : List.lookup k vs with
  | none => rfl
  | some en => exact alKeys_alUpdate k (g en) vs

theorem alKeys_addValidation_foldl (evs : List String) (trig vf : String) (m : ValMap) :
    alKeys (evs.foldl (fun acc ev =>
      updEntry acc vf (fun en => { en with refCount := bumpRef en.refCount (eventId trig ev) }))
      m) = alKeys m := by
  induction evs generalizing m with
  | nil => rfl
  | cons e es ih => rw [List.foldl_cons, ih, alKeys_updEntry]

theorem lookup_none_not_mem {α : Type} (k : String) (l : List (String × α))
    (h : List.lookup k l = none) : k ∉ alKeys l := by
  induction l with
  | nil => simp [alKeys]
  | cons p rest ih =>
    obtain ⟨k', v'⟩ := p
    simp only [List.lookup] at h
    cases hk : (k == k') with
    | true => rw [hk] at h; exact absurd h (by simp)
    | false =>
      rw [hk] at h
      have hne : k ≠ k' := by
        intro he
        rw [he] at hk
        simp at hk
      simp [alKeys]
      exact ⟨hne, by simpa [alKeys] using ih h⟩

theorem addValidationT_keys_nodup (vs : ValMap) (trig : String) (evs : List String)
    (vf : String) (h : (alKeys vs).Nodup) :
    (alKeys (addValidationT vs trig evs vf)).Nodup := by
  unfold addValidationT
  rw [alKeys_addValidation_foldl]
  cases hl : List.lookup vf vs with
  | some en => simpa [hl] using h
  | none =>
    have hnm := lookup_none_not_mem vf vs hl
    simp only [hl, alKeys, List.map_append]
    refine List.Nodup.append h (List.nodup_singleton vf) ?_
    intro x hx hx'
    simp at hx'
    rw [hx'] at hx
    exact hnm hx

/-- Claim C6: rule registration is reference-counted per (trigger, event)
pair and a rule is stored at most once per target (`addValidation` preserves
key uniqueness of the `validations` dictionary).  Registering the same rule
twice on the same pair yields one entry with count 2; removing once leaves
it active with count 1; removing again deletes the rule; and
`removeControlFunction` disposes the whole target once its last rule is
removed. -/
theorem rule_refcount_lifecycle (vs : ValMap) (trig : String) (evs : List String)
    (vf : String) (h : (alKeys vs).Nodup) :
    (alKeys (addValidationT vs trig evs vf)).Nodup ∧
    addValidationT (addValidationT [] "trig" ["change"] "Validator_Required") "trig"
        ["change"] "Validator_Required" =
      [("Validator_Required", ⟨false, [("trig.change", 2)]⟩)] ∧
    removeValidationT [("Validator_Required", ⟨false, [("trig.change", 2)]⟩)] "trig"
        ["change"] "Validator_Required" =
      [("Validator_Required", ⟨false, [("trig.change", 1)]⟩)] ∧
    removeValidationT [("Validator_Required", ⟨false, [("trig.change", 1)]⟩)] "trig"
        ["change"] "Validator_Required" = [] ∧
    removeControlFunctionV
        [("field1", [("Validator_Required", ⟨false, [("trig.change", 1)]⟩)])]
        "field1" "trig" ["change"] "Validator_Required" = [] :=
  ⟨addValidationT_keys_nodup vs trig evs vf h, by decide, by decide, by decide, by decide⟩

/-- Witness for `rule_refcount_lifecycle` at a concrete registration. -/
theorem rule_refcount_lifecycle_witness :
    (alKeys (addValidationT [] "ctl" ["keyup"] "Validator_Required")).Nodup :=
  (rule_refcount_lifecycle [] "ctl" ["keyup"] "Validator_Required" (by decide)).1

/-- Claim C9: the `'+'` branch of `calc` converts both the register and the
accumulator with `parseInt` before adding (discarding fractional parts:
`1.5 + 2.7` displays `3`), while `'-'`, `'*'` and `'/'` operate on the full
numeric coercions of the operands. -/
theorem calc_plus_truncates (a r : JSVal) (e dc : Bool) (dp : JSVal)
    (qa qr : ℚ) (ia ir : Int)
    (hna : jsToNumberV a = some qa) (hnr : jsToNumberV r = some qr)
    (hia : jsParseIntV a = some ia) (hir : jsParseIntV r = some ir) :
    (calcFn ⟨a, r, "+", e, dc, dp⟩).reg = JSVal.num (((ir + ia : Int) : ℚ)) ∧
    (calcFn ⟨a, r, "-", e, dc, dp⟩).reg = JSVal.num (qr - qa) ∧
    (calcFn ⟨a, r, "*", e, dc, dp⟩).reg = JSVal.num (qr * qa) ∧
    (qa ≠ 0 → jsParseFloatV a ≠ some 0 →
      (calcFn ⟨a, r, "/", e, dc, dp⟩).reg = JSVal.num (qr / qa)) ∧
    (calcFn ⟨JSVal.str "2.7", JSVal.str "1.5", "+", false, false, JSVal.num 0⟩).display =
      JSVal.num 3 := by
  refine ⟨?_, ?_, ?_, ?_, ?_⟩
  · simp [calcFn, jsAddInts, hia, hir]
  · simp [calcFn, jsSub, hna, hnr]
  · simp [calcFn, jsMul, hna, hnr]
  · intro hz hpf
    simp [calcFn, hpf, jsDivV, hna, hnr, hz]
  · rfl

/-- Witness for `calc_plus_truncates` at the concrete operands 1.5 and
2.7. -/
theorem calc_plus_truncates_witness :
    (calcFn ⟨JSVal.str "2.7", JSVal.str "1.5", "+", false, false, JSVal.num 0⟩).display =
      JSVal.num 3 :=
  (calc_plus_truncates (JSVal.str "2.7") (JSVal.str "1.5") false false (JSVal.num 0)
    (27 / 10) (15 / 10) 2 1 (by rfl) (by rfl) (by rfl) (by rfl)).2.2.2.2

/-- Claim C10: pressing `=` with pending operator `/` while the accumulator
parses to 0 does not divide — the register becomes the string
`'Divide by zero.'`, it is displayed, and the error flag is set; the next
number-button click while the error flag is set behaves exactly as on the
fully reset state (accumulator 0, operator cleared, error cleared, display
cleared; the register is untouched by `clear`). -/
theorem divide_by_zero_error_and_reset (a r : JSVal) (dc : Bool) (dp : JSVal)
    (d : String) (ha : jsParseFloatV a = some 0) :
    (calcFn ⟨a, r, "/", false, dc, dp⟩).reg = JSVal.str "Divide by zero." ∧
    (calcFn ⟨a, r, "/", false, dc, dp⟩).display = JSVal.str "Divide by zero." ∧
    (calcFn ⟨a, r, "/", false, dc, dp⟩).err = true ∧
    numberClick (calcFn ⟨a, r, "/", false, dc, dp⟩) d =
      numberClick ⟨JSVal.num 0, JSVal.str "Divide by zero.", "", false, false, JSVal.num 0⟩ d := by
  have hc : calcFn ⟨a, r, "/", false, dc, dp⟩ =
      ⟨a, JSVal.str "Divide by zero.", "/", true, dc, JSVal.str "Divide by zero."⟩ := by
    simp [calcFn, ha]
  rw [hc]
  refine ⟨rfl, rfl, rfl, ?_⟩
  rw [numberClick, numberClick]
  simp [clearC, clearAccC]

/-- Witness for `divide_by_zero_error_and_reset` with the accumulator in its
freshly-cleared numeric-zero state. -/
theorem divide_by_zero_error_and_reset_witness :
    (calcFn ⟨JSVal.num 0, JSVal.str "5", "/", false, false, JSVal.num 0⟩).err = true :=
  (divide_by_zero_error_and_reset (JSVal.num 0) (JSVal.str "5") false (JSVal.num 0) "7"
    (by decide)).2.2.1

end HTMLCalc
